import Mathlib

/-!
Shallow embedding of the agent-based-model scaffolding (`abm.py`) and its
round-driving script (`simulation.py`).

Conventions of the embedding:
* Python numbers (ints and the floats produced by `/`) are modelled as `ℚ`,
  so that division is exact; `None` is modelled by `Option`.
* Python exceptions (`IndexError`, `TypeError`, `ValueError`,
  `ZeroDivisionError`) are modelled by `Except Err`.
* The ambient randomness of `random.randint` and `random.sample` is modelled
  by oracle parameters (`initVal` for the sampled initial value, `choose` for
  the subset picked by `random.sample`); the deterministic failure conditions
  of those library calls are modelled faithfully.
* The multiprocessing pool of `simulation.py` hands each worker a pickled
  copy of the master environment; worker-local mutation is invisible to the
  master, and `Pool.map` returns results in task-submission order, re-raising
  if any task raised.  This is embedded as a pure pass over the population
  that computes every result from the round-start environment and discards
  the worker-side agent copies.
-/

/-- Python exception kinds that the embedded code can raise. -/
inductive Err where
  | indexError
  | typeError
  | valueError
  | zeroDivisionError
deriving DecidableEq

instance {α : Type} [DecidableEq α] : DecidableEq (Except Err α) := fun x y =>
  match x, y with
  | .ok a, .ok b => if h : a = b then .isTrue (by rw [h]) else .isFalse (by simp [h])
  | .error a, .error b => if h : a = b then .isTrue (by rw [h]) else .isFalse (by simp [h])
  | .ok _, .error _ => .isFalse (by simp)
  | .error _, .ok _ => .isFalse (by simp)

/-- Python list subscription `xs[i]`: a non-negative index must be below the
length; a negative index `i` is resolved to `len(xs) + i`; anything else
raises `IndexError`. -/
def pyGet {α : Type} (xs : List α) (i : ℤ) : Except Err α :=
  if h : 0 ≤ i ∧ i < xs.length then .ok (xs.get ⟨i.toNat, by omega⟩)
  else if h2 : -(xs.length : ℤ) ≤ i ∧ i < 0 then
    .ok (xs.get ⟨(i + xs.length).toNat, by omega⟩)
  else .error .indexError

/-- Python `l.remove(x)`: removes the first occurrence of `x`, raising
`ValueError` when `x` is absent. -/
def pyRemove (l : List ℕ) (x : ℕ) : Except Err (List ℕ) :=
  if x ∈ l then .ok (l.erase x) else .error .valueError

/-- Python `random.sample(l, k)`: raises `ValueError` iff `k` exceeds the
population size (the `k < 0` case cannot arise for the `ℕ`-valued `k`);
otherwise it returns `k` distinct elements of `l`, modelled by the oracle
`choose`. -/
def pySample (choose : List ℕ → ℕ → List ℕ) (l : List ℕ) (k : ℕ) : Except Err (List ℕ) :=
  if k ≤ l.length then .ok (choose l k) else .error .valueError

/-- Python `sum` over the neighbor data, starting from `0` and adding
left-to-right; adding a `None` raises `TypeError`. -/
def pySumData : List (Option ℚ) → Except Err ℚ
  | [] => .ok 0
  | o :: t =>
    match o with
    | none => .error .typeError
    | some v => do
      let s ← pySumData t
      .ok (v + s)

/-- Agent state, mirroring the fields set in `Agent.__init__`. -/
structure Agent where
  neighbors : List ℕ
  cur_data : Option ℚ
  next_data : Option ℚ
  process_time : ℚ
  id : ℕ
deriving DecidableEq

/-- Environment state, mirroring `Environment.__init__`: the population list
(indices correspond to ids) and the shared constant `my_special_stuff`
(initialised to 3). -/
structure Environment where
  population : List Agent
  my_special_stuff : ℚ
deriving DecidableEq

/-- Fresh environment: `population = []`, `my_special_stuff = 3`. -/
def Environment.init : Environment :=
  { population := [], my_special_stuff := 3 }

/-- Lookup `population[id]` with Python list-subscription semantics. -/
def Environment.lookup (env : Environment) (i : ℤ) : Except Err Agent :=
  pyGet env.population i

/-- Registration: appends the agent to the population and returns
`len(population) - 1` computed on the grown list. -/
def Environment.register (env : Environment) (a : Agent) : Environment × ℕ :=
  let pop := env.population ++ [a]
  ({ env with population := pop }, pop.length - 1)

/-- Constructor `Agent(env)`: fields are initialised and the agent registers
itself; in Python the object placed in the population is the agent itself,
and its `id` field receives the value `register` returns (the pre-call
population length), so here the agent is built with that id and appended. -/
def Agent.create (env : Environment) : Environment × Agent :=
  let a : Agent :=
    { neighbors := [], cur_data := none, next_data := none, process_time := 0,
      id := env.population.length }
  ((env.register a).1, a)

/-- The registration loop of `doit`: `for i in range(n): Agent(env)`. -/
def initAgents : Environment → ℕ → Environment
  | env, 0 => env
  | env, Nat.succ n => initAgents (Agent.create env).1 n

/-- Parameter dictionary of `simulation.py` (`processes` only sizes the pool
and never enters any computed value). -/
structure Params where
  neighbors : ℕ
  max : ℕ
  iterations : ℕ
  agents : ℕ
  processes : ℕ
  process_time : ℚ

/-- Setup of one agent: draw the initial value (`random.randint`, modelled by
the oracle `initVal`), record `process_time`, then sample neighbors from
`list(range(len(population)))` with `self.id` removed.  In Python a raise
from `remove`/`sample` leaves the earlier field writes in place; the claims
only concern whether setup raises and the fully-set-up agent, on which this
`Except` embedding agrees. -/
def Agent.setup (a : Agent) (params : Params) (env : Environment) (initVal : ℤ)
    (choose : List ℕ → ℕ → List ℕ) : Except Err Agent := do
  let l := List.range env.population.length
  let l2 ← pyRemove l a.id
  let nbrs ← pySample choose l2 params.neighbors
  .ok { a with cur_data := some (initVal : ℚ), process_time := params.process_time,
               neighbors := nbrs }

/-- Inner pass of `calculate_update`: `map(f, self.neighbors)` with
`f = lambda x: env.lookup(x).cur_data`. -/
def neighborData (env : Environment) : List ℕ → Except Err (List (Option ℚ))
  | [] => .ok []
  | x :: t => do
    let ag ← env.lookup (x : ℤ)
    let rest ← neighborData env t
    .ok (ag.cur_data :: rest)

/-- One step of an agent: `next_data = (sum(map(f, neighbors)) + cur_data) /
env.my_special_stuff`, returned together with the agent as mutated (the
`time.sleep(process_time)` only delays and never changes any value, so it is
omitted).  A `None` in the sum or in `cur_data` raises `TypeError`; a zero
`my_special_stuff` raises `ZeroDivisionError`. -/
def Agent.calculate_update (a : Agent) (env : Environment) : Except Err (ℚ × Agent) := do
  let datas ← neighborData env a.neighbors
  let s ← pySumData datas
  let cur ←
    match a.cur_data with
    | some v => Except.ok v
    | none => Except.error Err.typeError
  if env.my_special_stuff = 0 then .error .zeroDivisionError
  else
    let nd := (s + cur) / env.my_special_stuff
    .ok (nd, { a with next_data := some nd })

/-- Commit of one agent: with `data = None` (the default) copy `next_data`
into `cur_data`, otherwise write the passed data into `cur_data`. -/
def Agent.do_update (a : Agent) (data : Option ℚ) : Agent :=
  match data with
  | none => { a with cur_data := a.next_data }
  | some d => { a with cur_data := some d }

/-- Worker task `update(a)`: returns the pair of the agent's id and the value
`calculate_update` computed against the worker's environment copy; the
mutated worker-local agent copy is discarded. -/
def update (env : Environment) (a : Agent) : Except Err (ℕ × ℚ) := do
  let r ← a.calculate_update env
  .ok (a.id, r.1)

/-- The pool map `p.map(update, env.population)`: every task reads the same
round-start environment, results come back in task order, and a raise in any
task re-raises in the master with no result list produced. -/
def computeAll (env : Environment) : List Agent → Except Err (List (ℕ × ℚ))
  | [] => .ok []
  | a :: t => do
    let r ← update env a
    let rest ← computeAll env t
    .ok (r :: rest)

/-- One commit `env.lookup(id).do_update(data)` of the collection loop: the
lookup resolves the id and the agent stored there is updated in place. -/
def commitOne (env : Environment) (i : ℕ) (d : ℚ) : Except Err Environment := do
  let ag ← env.lookup (i : ℤ)
  .ok { env with population := env.population.set i (ag.do_update (some d)) }

/-- The commit loop `for id, data in result: env.lookup(id).do_update(data)`. -/
def commitAll : Environment → List (ℕ × ℚ) → Except Err Environment
  | env, [] => .ok env
  | env, (i, d) :: t => do
    let env1 ← commitOne env i d
    commitAll env1 t

/-- The per-iteration printout: each agent's id paired with its committed
current value, in population order. -/
def report (env : Environment) : List (ℕ × Option ℚ) :=
  env.population.map (fun a => (a.id, a.cur_data))

/-- One iteration of the loop in `doit`: run the pool map over the whole
population, then commit every collected `(id, data)` pair. -/
def doRound (env : Environment) : Except Err Environment := do
  let results ← computeAll env env.population
  commitAll env results

/-- Master-state effect of attempting one iteration: when any task raises,
`Pool.map` re-raises before `result` is bound, the commit loop never runs,
and the master environment (whose agents only worker copies ever touched)
is left exactly as it was at the start of the round. -/
def tryRound (env : Environment) : Environment :=
  match doRound env with
  | .ok e => e
  | .error _ => env

/-- The iteration loop of `doit`: `for i in range(n)` run a round and emit
its report. -/
def runIterations : Environment → ℕ → Except Err (Environment × List (List (ℕ × Option ℚ)))
  | env, 0 => .ok (env, [])
  | env, Nat.succ n => do
    let env1 ← doRound env
    let (envf, reps) ← runIterations env1 n
    .ok (envf, report env1 :: reps)

/-- Last value written for id `j` by a sequence of `(id, data)` commits. -/
def lastWrite : List (ℕ × ℚ) → ℕ → Option ℚ
  | [], _ => none
  | (i, d) :: t, j =>
    match lastWrite t j with
    | some v => some v
    | none => if i = j then some d else none

/-- Well-formed environment: the agent stored at every index carries that
index as its id (which `doit`'s registration loop establishes). -/
def WF (env : Environment) : Prop :=
  env.population.map Agent.id = List.range env.population.length

instance (env : Environment) : Decidable (WF env) := by
  unfold WF
  infer_instance

/-- Contract of `random.sample`: on a duplicate-free population `l` with
`k ≤ len(l)` it yields `k` distinct elements of `l`. -/
def SampleSpec (choose : List ℕ → ℕ → List ℕ) : Prop :=
  ∀ l k, l.Nodup → k ≤ l.length →
    (choose l k).length = k ∧ (choose l k).Nodup ∧ ∀ x ∈ choose l k, x ∈ l

/-- Canonical sampling oracle used by concrete witnesses: take the first `k`
candidates. -/
def takeChoose (l : List ℕ) (k : ℕ) : List ℕ := l.take k

/-- Agent exactly as `Agent.__init__` builds it when the population has `i`
agents already: empty neighbor list, both data slots `None`, zero process
time, and id `i`. -/
def mkBlank (i : ℕ) : Agent :=
  { neighbors := [], cur_data := none, next_data := none, process_time := 0, id := i }

/-- First agent of the three-agent concrete scenario of the spec. -/
def agentC2a : Agent :=
  { neighbors := [1], cur_data := some 10, next_data := none, process_time := 0, id := 0 }

/-- Second agent of the three-agent concrete scenario of the spec. -/
def agentC2b : Agent :=
  { neighbors := [2], cur_data := some 20, next_data := none, process_time := 0, id := 1 }

/-- Third agent of the three-agent concrete scenario of the spec. -/
def agentC2c : Agent :=
  { neighbors := [0], cur_data := some 30, next_data := none, process_time := 0, id := 2 }

/-- Three-agent environment: ids 0, 1, 2 with neighbor sets `{1}`, `{2}`,
`{0}`, current values 10, 20, 30 and `my_special_stuff = 1`. -/
def envC2 : Environment :=
  { population := [agentC2a, agentC2b, agentC2c], my_special_stuff := 1 }

/-- Expected state of `envC2` after one round: committed values 30, 50, 40;
everything else, including `next_data` (which only worker copies ever set),
unchanged. -/
def envC2Next : Environment :=
  { population :=
      [{ neighbors := [1], cur_data := some 30, next_data := none, process_time := 0, id := 0 },
       { neighbors := [2], cur_data := some 50, next_data := none, process_time := 0, id := 1 },
       { neighbors := [0], cur_data := some 40, next_data := none, process_time := 0, id := 2 }],
    my_special_stuff := 1 }

/-- One-agent environment used to probe `lookup`. -/
def envC4 : Environment :=
  { population := [mkBlank 0], my_special_stuff := 3 }

/-- Two-agent environment used to probe `setup`. -/
def envC5 : Environment :=
  { population := [mkBlank 0, mkBlank 1], my_special_stuff := 3 }

/-- Parameters requesting one neighbor, used with `envC5` and `envC4`. -/
def pC5 : Params :=
  { neighbors := 1, max := 50, iterations := 30, agents := 20, processes := 15,
    process_time := 0 }

/-- Expected result of setting up agent 0 of `envC5` with initial value 0 and
the `takeChoose` oracle. -/
def aC5setup : Agent :=
  { neighbors := [1], cur_data := some 0, next_data := none, process_time := 0, id := 0 }

/-- Agent whose single neighbor id 5 is outside its one-agent population, so
its update computation raises. -/
def agentERR : Agent :=
  { neighbors := [5], cur_data := some 1, next_data := none, process_time := 0, id := 0 }

/-- Environment in which `agentERR.calculate_update` raises `IndexError`. -/
def envERR : Environment :=
  { population := [agentERR], my_special_stuff := 3 }

theorem takeChoose_spec : SampleSpec takeChoose := by
  intro l k hnd hk
  refine ⟨by simp [takeChoose]; omega, hnd.sublist (List.take_sublist k l), ?_⟩
  intro x hx
  exact List.mem_of_mem_take hx

lemma pyGet_nat {α : Type} (xs : List α) (j : ℕ) (hj : j < xs.length) :
    pyGet xs (j : ℤ) = .ok (xs.get ⟨j, hj⟩) := by
  have h : 0 ≤ (j : ℤ) ∧ (j : ℤ) < xs.length := by omega
  simp only [pyGet, dif_pos h]
  congr 1

lemma pyGet_neg {α : Type} (xs : List α) (i : ℤ) (h1 : -(xs.length : ℤ) ≤ i) (h2 : i < 0)
    (hj : (i + xs.length).toNat < xs.length) :
    pyGet xs i = .ok (xs.get ⟨(i + xs.length).toNat, hj⟩) := by
  have h : ¬(0 ≤ i ∧ i < (xs.length : ℤ)) := by omega
  simp only [pyGet, dif_neg h, dif_pos (And.intro h1 h2)]

lemma pyGet_out {α : Type} (xs : List α) (i : ℤ)
    (h : i < -(xs.length : ℤ) ∨ (xs.length : ℤ) ≤ i) :
    pyGet xs i = .error .indexError := by
  have h1 : ¬(0 ≤ i ∧ i < (xs.length : ℤ)) := by omega
  have h2 : ¬(-(xs.length : ℤ) ≤ i ∧ i < 0) := by omega
  simp only [pyGet, dif_neg h1, dif_neg h2]

lemma pyGet_isOk {α : Type} (xs : List α) (i : ℤ)
    (h : -(xs.length : ℤ) ≤ i ∧ i < (xs.length : ℤ)) :
    ∃ a, pyGet xs i = .ok a := by
  rcases lt_or_le i 0 with hneg | hpos
  · exact ⟨_, pyGet_neg xs i h.1 hneg (by omega)⟩
  · have hj : i.toNat < xs.length := by omega
    have := pyGet_nat xs i.toNat hj
    rw [Int.toNat_of_nonneg hpos] at this
    exact ⟨_, this⟩

lemma commitOne_eq (env : Environment) (i : ℕ) (d : ℚ) :
    commitOne env i d =
      if h : i < env.population.length then
        .ok { env with population :=
          env.population.set i ((env.population.get ⟨i, h⟩).do_update (some d)) }
      else .error .indexError := by
  by_cases h : i < env.population.length
  · rw [dif_pos h]
    simp only [commitOne, Environment.lookup, pyGet_nat env.population i h]
    rfl
  · rw [dif_neg h]
    simp only [commitOne, Environment.lookup,
      pyGet_out env.population (i : ℤ) (by omega)]
    rfl


lemma commitOne_ok_iff {env env1 : Environment} {i : ℕ} {d : ℚ} :
    commitOne env i d = .ok env1 ↔
      ∃ h : i < env.population.length,
        env1 = { env with population :=
          env.population.set i ((env.population.get ⟨i, h⟩).do_update (some d)) } := by
  rw [commitOne_eq]
  by_cases h : i < env.population.length
  · rw [dif_pos h]
    constructor
    · intro he
      cases he
      exact ⟨h, rfl⟩
    · rintro ⟨h2, rfl⟩
      rfl
  · rw [dif_neg h]
    constructor
    · intro he
      cases he
    · rintro ⟨h2, rfl⟩
      exact absurd h2 h

lemma commitAll_ok_spec {rs : List (ℕ × ℚ)} :
    ∀ {env env' : Environment}, commitAll env rs = .ok env' →
      env'.my_special_stuff = env.my_special_stuff ∧
      env'.population.length = env.population.length ∧
      ∀ j (hj : j < env.population.length) (hj' : j < env'.population.length),
        env'.population[j] =
          (match lastWrite rs j with
            | some v => { env.population[j] with cur_data := some v }
            | none => env.population[j]) := by
  induction rs with
  | nil =>
    intro env env' h
    cases h
    refine ⟨rfl, rfl, ?_⟩
    intro j hj hj'
    simp [lastWrite]
  | cons p t ih =>
    intro env env' h
    obtain ⟨i, d⟩ := p
    rw [commitAll] at h
    rcases h1 : commitOne env i d with e | env1
    · rw [h1] at h
      replace h : (Except.error e : Except Err Environment) = .ok env' := h
      cases h
    · rw [h1] at h
      replace h : commitAll env1 t = .ok env' := h
      obtain ⟨hi, henv1⟩ := commitOne_ok_iff.mp h1
      obtain ⟨hs, hl, hget⟩ := ih h
      subst henv1
      have hl' : env'.population.length = env.population.length := by
        simpa using hl
      refine ⟨hs, hl', ?_⟩
      intro j hj hj'
      have hj1 : j < (env.population.set i
          ((env.population.get ⟨i, hi⟩).do_update (some d))).length := by
        simpa using hj
      rw [hget j hj1 hj']
      cases hlw : lastWrite t j with
      | none =>
        simp only [lastWrite, hlw]
        by_cases hij : i = j
        · subst hij
          simp [List.getElem_set, Agent.do_update]
        · simp [List.getElem_set, hij]
      | some v =>
        simp only [lastWrite, hlw]
        by_cases hij : i = j
        · subst hij
          simp [List.getElem_set, Agent.do_update]
        · simp [List.getElem_set, hij]

lemma commitAll_error_kind {rs : List (ℕ × ℚ)} :
    ∀ {env : Environment} {e : Err}, commitAll env rs = .error e → e = .indexError := by
  induction rs with
  | nil =>
    intro env e h
    cases h
  | cons p t ih =>
    intro env e h
    obtain ⟨i, d⟩ := p
    rw [commitAll] at h
    rcases h1 : commitOne env i d with e1 | env1
    · rw [h1] at h
      replace h : (Except.error e1 : Except Err Environment) = .error e := h
      cases h
      rw [commitOne_eq] at h1
      by_cases hi : i < env.population.length
      · rw [dif_pos hi] at h1
        cases h1
      · rw [dif_neg hi] at h1
        cases h1
        rfl
    · rw [h1] at h
      replace h : commitAll env1 t = .error e := h
      exact ih h

lemma commitAll_isOk_iff {rs : List (ℕ × ℚ)} :
    ∀ {env : Environment}, (∃ env', commitAll env rs = .ok env') ↔
      ∀ p ∈ rs, p.1 < env.population.length := by
  induction rs with
  | nil =>
    intro env
    simp [commitAll]
  | cons p t ih =>
    intro env
    obtain ⟨i, d⟩ := p
    rw [commitAll]
    constructor
    · rintro ⟨env', h⟩
      rcases h1 : commitOne env i d with e | env1
      · rw [h1] at h
        replace h : (Except.error e : Except Err Environment) = .ok env' := h
        cases h
      · rw [h1] at h
        replace h : commitAll env1 t = .ok env' := h
        obtain ⟨hi, henv1⟩ := commitOne_ok_iff.mp h1
        intro q hq
        rcases List.mem_cons.mp hq with rfl | hqt
        · exact hi
        · have hq1 := ih.mp ⟨env', h⟩ q hqt
          rw [henv1] at hq1
          simpa using hq1
    · intro hall
      have hi : i < env.population.length := hall (i, d) (List.mem_cons_self _ _)
      rcases h1 : commitOne env i d with e | env1
      · rw [commitOne_eq, dif_pos hi] at h1
        cases h1
      · obtain ⟨hi2, henv1⟩ := commitOne_ok_iff.mp h1
        have hall2 : ∀ q ∈ t, q.1 < env1.population.length := by
          intro q hq
          rw [henv1]
          simpa using hall q (List.mem_cons_of_mem _ hq)
        obtain ⟨env', h⟩ := ih.mpr hall2
        exact ⟨env', h⟩

lemma lastWrite_eq_none_iff {rs : List (ℕ × ℚ)} {j : ℕ} :
    lastWrite rs j = none ↔ ∀ p ∈ rs, p.1 ≠ j := by
  induction rs with
  | nil => simp [lastWrite]
  | cons p t ih =>
    obtain ⟨i, d⟩ := p
    rw [lastWrite]
    cases hlw : lastWrite t j with
    | some v =>
      simp only []
      constructor
      · intro h
        cases h
      · intro hall
        exfalso
        have hn := ih.mpr (fun q hq => hall q (List.mem_cons_of_mem _ hq))
        rw [hn] at hlw
        cases hlw
    | none =>
      simp only []
      constructor
      · intro h q hq
        rcases List.mem_cons.mp hq with rfl | hqt
        · by_cases hij : i = j
          · rw [if_pos hij] at h
            cases h
          · exact hij
        · exact (ih.mp hlw) q hqt
      · intro hall
        rw [if_neg (hall (i, d) (List.mem_cons_self _ _))]

lemma lastWrite_mem {rs : List (ℕ × ℚ)} {j : ℕ} {v : ℚ}
    (h : lastWrite rs j = some v) : (j, v) ∈ rs := by
  induction rs with
  | nil => cases h
  | cons p t ih =>
    obtain ⟨i, d⟩ := p
    rw [lastWrite] at h
    cases hlw : lastWrite t j with
    | some w =>
      rw [hlw] at h
      cases h
      exact List.mem_cons_of_mem _ (ih hlw)
    | none =>
      rw [hlw] at h
      by_cases hij : i = j
      · rw [if_pos hij] at h
        cases h
        subst hij
        exact List.mem_cons_self _ _
      · rw [if_neg hij] at h
        cases h

lemma lastWrite_eq_some_of_mem {rs : List (ℕ × ℚ)} {j : ℕ} {v : ℚ}
    (hnd : (rs.map Prod.fst).Nodup) (hm : (j, v) ∈ rs) : lastWrite rs j = some v := by
  induction rs with
  | nil => cases hm
  | cons p t ih =>
    obtain ⟨i, d⟩ := p
    rw [List.map_cons, List.nodup_cons] at hnd
    obtain ⟨hni, hndt⟩ := hnd
    rw [lastWrite]
    rcases List.mem_cons.mp hm with heq | hmt
    · cases heq
      have ht : lastWrite t j = none := by
        rw [lastWrite_eq_none_iff]
        intro q hq hqj
        have hqm : q.1 ∈ t.map Prod.fst := List.mem_map_of_mem Prod.fst hq
        rw [hqj] at hqm
        exact hni hqm
      rw [ht, if_pos rfl]
    · rw [ih hndt hmt]

lemma lastWrite_perm {rs1 rs2 : List (ℕ × ℚ)} (hperm : rs1.Perm rs2)
    (hnd : (rs1.map Prod.fst).Nodup) (j : ℕ) : lastWrite rs1 j = lastWrite rs2 j := by
  cases h : lastWrite rs1 j with
  | none =>
    rw [lastWrite_eq_none_iff] at h
    exact (lastWrite_eq_none_iff.mpr fun q hq => h q (hperm.symm.subset hq)).symm
  | some v =>
    have hnd2 : (rs2.map Prod.fst).Nodup := ((hperm.map Prod.fst).nodup_iff).mp hnd
    exact (lastWrite_eq_some_of_mem hnd2 (hperm.subset (lastWrite_mem h))).symm

lemma update_ok_inv {env : Environment} {a : Agent} {r : ℕ × ℚ}
    (hu : update env a = .ok r) :
    ∃ b, a.calculate_update env = .ok b ∧ r = (a.id, b.1) := by
  rw [update] at hu
  rcases hcu : a.calculate_update env with e | b
  · rw [hcu] at hu
    replace hu : (Except.error e : Except Err (ℕ × ℚ)) = .ok r := hu
    cases hu
  · rw [hcu] at hu
    replace hu : (Except.ok (a.id, b.1) : Except Err (ℕ × ℚ)) = .ok r := hu
    cases hu
    exact ⟨b, rfl, rfl⟩

lemma computeAll_ok_spec {l : List Agent} :
    ∀ {env : Environment} {rs : List (ℕ × ℚ)}, computeAll env l = .ok rs →
      rs.length = l.length ∧
      ∀ j (hj : j < l.length) (hj' : j < rs.length),
        ∃ b, (l[j]).calculate_update env = .ok b ∧ rs[j] = ((l[j]).id, b.1) := by
  induction l with
  | nil =>
    intro env rs h
    cases h
    refine ⟨rfl, ?_⟩
    intro j hj hj'
    exact absurd hj (Nat.not_lt_zero j)
  | cons a t ih =>
    intro env rs h
    rw [computeAll] at h
    rcases hu : update env a with e | r
    · rw [hu] at h
      replace h : (Except.error e : Except Err (List (ℕ × ℚ))) = .ok rs := h
      cases h
    · rw [hu] at h
      rcases hc : computeAll env t with e | rest
      · rw [hc] at h
        replace h : (Except.error e : Except Err (List (ℕ × ℚ))) = .ok rs := h
        cases h
      · rw [hc] at h
        replace h : (Except.ok (r :: rest) : Except Err (List (ℕ × ℚ))) = .ok rs := h
        cases h
        obtain ⟨hlen, hspec⟩ := ih hc
        obtain ⟨b, hb, hr⟩ := update_ok_inv hu
        refine ⟨by simp [hlen], ?_⟩
        intro j hj hj'
        cases j with
        | zero =>
          exact ⟨b, hb, by simp [hr]⟩
        | succ m =>
          have hm : m < t.length := by simpa using hj
          have hm' : m < rest.length := by simpa using hj'
          obtain ⟨b2, hb2, hr2⟩ := hspec m hm hm'
          exact ⟨b2, hb2, by simpa using hr2⟩

lemma computeAll_ids {l : List Agent} :
    ∀ {env : Environment} {rs : List (ℕ × ℚ)}, computeAll env l = .ok rs →
      rs.map Prod.fst = l.map Agent.id := by
  induction l with
  | nil =>
    intro env rs h
    cases h
    rfl
  | cons a t ih =>
    intro env rs h
    rw [computeAll] at h
    rcases hu : update env a with e | r
    · rw [hu] at h
      replace h : (Except.error e : Except Err (List (ℕ × ℚ))) = .ok rs := h
      cases h
    · rw [hu] at h
      rcases hc : computeAll env t with e | rest
      · rw [hc] at h
        replace h : (Except.error e : Except Err (List (ℕ × ℚ))) = .ok rs := h
        cases h
      · rw [hc] at h
        replace h : (Except.ok (r :: rest) : Except Err (List (ℕ × ℚ))) = .ok rs := h
        cases h
        obtain ⟨b, hb, hr⟩ := update_ok_inv hu
        simp [hr, ih hc]

lemma computeAll_ok_forall {l : List Agent} :
    ∀ {env : Environment} {rs : List (ℕ × ℚ)}, computeAll env l = .ok rs →
      ∀ a ∈ l, ∃ b, a.calculate_update env = .ok b := by
  induction l with
  | nil =>
    intro env rs h a ha
    cases ha
  | cons a0 t ih =>
    intro env rs h a ha
    rw [computeAll] at h
    rcases hu : update env a0 with e | r
    · rw [hu] at h
      replace h : (Except.error e : Except Err (List (ℕ × ℚ))) = .ok rs := h
      cases h
    · rw [hu] at h
      rcases hc : computeAll env t with e | rest
      · rw [hc] at h
        replace h : (Except.error e : Except Err (List (ℕ × ℚ))) = .ok rs := h
        cases h
      · rcases List.mem_cons.mp ha with rfl | hat
        · obtain ⟨b, hb, hr⟩ := update_ok_inv hu
          exact ⟨b, hb⟩
        · exact ih hc a hat

lemma doRound_ok_inv {env env' : Environment} (h : doRound env = .ok env') :
    ∃ rs, computeAll env env.population = .ok rs ∧ commitAll env rs = .ok env' := by
  rw [doRound] at h
  rcases hc : computeAll env env.population with e | rs
  · rw [hc] at h
    replace h : (Except.error e : Except Err Environment) = .ok env' := h
    cases h
  · rw [hc] at h
    exact ⟨rs, rfl, h⟩

lemma WF_id {env : Environment} (hwf : WF env) (j : ℕ)
    (hj : j < env.population.length) : (env.population[j]).id = j := by
  have h1 := congrArg (fun l => l[j]?) hwf
  simp only [List.getElem?_map] at h1
  rw [List.getElem?_eq_getElem hj, List.getElem?_range hj] at h1
  exact Option.some.inj h1

lemma WF_ids_nodup {env : Environment} (hwf : WF env) :
    (env.population.map Agent.id).Nodup := by
  rw [hwf]
  exact List.nodup_range _

lemma ok_bind {α β : Type} (a : α) (f : α → Except Err β) :
    (Except.ok a : Except Err α) >>= f = f a := rfl

lemma error_bind {α β : Type} (e : Err) (f : α → Except Err β) :
    (Except.error e : Except Err α) >>= f = .error e := rfl

lemma toNat_two : Int.toNat (2 : ℤ) = 2 := rfl

lemma env_eq {e1 e2 : Environment} (h1 : e1.population = e2.population)
    (h2 : e1.my_special_stuff = e2.my_special_stuff) : e1 = e2 := by
  cases e1
  cases e2
  simp_all

lemma calculate_update_ok_inv {a : Agent} {env : Environment} {b : ℚ × Agent}
    (h : a.calculate_update env = .ok b) : b.2 = { a with next_data := some b.1 } := by
  rw [Agent.calculate_update] at h
  rcases hnd : neighborData env a.neighbors with e | datas
  · rw [hnd] at h
    replace h : (Except.error e : Except Err (ℚ × Agent)) = .ok b := h
    cases h
  · rw [hnd] at h
    simp only [ok_bind] at h
    rcases hs : pySumData datas with e | s
    · rw [hs] at h
      replace h : (Except.error e : Except Err (ℚ × Agent)) = .ok b := h
      cases h
    · rw [hs] at h
      simp only [ok_bind] at h
      rcases hcur : a.cur_data with _ | v
      · rw [hcur] at h
        replace h : (Except.error Err.typeError : Except Err (ℚ × Agent)) = .ok b := h
        cases h
      · rw [hcur] at h
        simp only [ok_bind] at h
        by_cases hz : env.my_special_stuff = 0
        · rw [if_pos hz] at h
          cases h
        · rw [if_neg hz] at h
          cases h
          rfl

lemma doRound_ok_frame {env1 env2 : Environment} (h : doRound env1 = .ok env2) :
    env2.population.map Agent.neighbors = env1.population.map Agent.neighbors := by
  obtain ⟨rs, hc, hcm⟩ := doRound_ok_inv h
  obtain ⟨hs, hl, hget⟩ := commitAll_ok_spec hcm
  apply List.ext_getElem (by simpa using hl)
  intro j h1 h2
  rw [List.getElem_map, List.getElem_map]
  have hj1 : j < env2.population.length := by simpa using h1
  have hj2 : j < env1.population.length := by simpa using h2
  rw [hget j hj2 hj1]
  cases hlw : lastWrite rs j <;> simp

lemma runIterations_ok_length :
    ∀ (n : ℕ) (env env2 : Environment) (reps : List (List (ℕ × Option ℚ))),
      runIterations env n = .ok (env2, reps) → reps.length = n := by
  intro n
  induction n with
  | zero =>
    intro env env2 reps h
    cases h
    rfl
  | succ m ih =>
    intro env env2 reps h
    rw [runIterations] at h
    rcases hd : doRound env with e | env1
    · rw [hd] at h
      replace h : (Except.error e : Except Err (Environment × List (List (ℕ × Option ℚ)))) =
        .ok (env2, reps) := h
      cases h
    · rw [hd] at h
      simp only [ok_bind] at h
      rcases hr : runIterations env1 m with e | pr
      · rw [hr] at h
        replace h : (Except.error e : Except Err (Environment × List (List (ℕ × Option ℚ)))) =
          .ok (env2, reps) := h
        cases h
      · rw [hr] at h
        obtain ⟨envf, reps1⟩ := pr
        replace h : (Except.ok (envf, report env1 :: reps1) :
            Except Err (Environment × List (List (ℕ × Option ℚ)))) = .ok (env2, reps) := h
        cases h
        simp [ih env1 _ reps1 hr]

lemma runIterations_one (env env2 : Environment) (h : doRound env = .ok env2) :
    runIterations env 1 = .ok (env2, [report env2]) := by
  show runIterations env (Nat.succ 0) = .ok (env2, [report env2])
  rw [runIterations, h]
  rfl

lemma setup_ok_inv {a a2 : Agent} {p : Params} {env : Environment} {iv : ℤ}
    {choose : List ℕ → ℕ → List ℕ} (hid : a.id < env.population.length)
    (hok : a.setup p env iv choose = .ok a2) :
    p.neighbors ≤ env.population.length - 1 ∧
    a2 = { a with
            cur_data := some (iv : ℚ),
            process_time := p.process_time,
            neighbors := choose ((List.range env.population.length).erase a.id) p.neighbors } := by
  simp only [Agent.setup] at hok
  rw [pyRemove, if_pos (List.mem_range.mpr hid)] at hok
  simp only [ok_bind] at hok
  rw [pySample] at hok
  have hlen : ((List.range env.population.length).erase a.id).length =
      env.population.length - 1 := by
    rw [List.length_erase_of_mem (List.mem_range.mpr hid), List.length_range]
  by_cases hk : p.neighbors ≤ ((List.range env.population.length).erase a.id).length
  · rw [if_pos hk] at hok
    simp only [ok_bind] at hok
    cases hok
    rw [hlen] at hk
    exact ⟨hk, rfl⟩
  · rw [if_neg hk] at hok
    replace hok : (Except.error Err.valueError : Except Err Agent) = .ok a2 := hok
    cases hok

lemma create_fst (env : Environment) :
    (Agent.create env).1.population = env.population ++ [mkBlank env.population.length] := rfl

lemma create_stuff (env : Environment) :
    (Agent.create env).1.my_special_stuff = env.my_special_stuff := rfl

lemma initAgents_pop : ∀ (k : ℕ) (env : Environment),
    (initAgents env k).population =
      env.population ++ (List.range k).map (fun j => mkBlank (env.population.length + j)) := by
  intro k
  induction k with
  | zero =>
    intro env
    simp [initAgents]
  | succ m ih =>
    intro env
    rw [initAgents, ih (Agent.create env).1, create_fst]
    simp only [List.length_append, List.length_singleton]
    rw [List.append_assoc]
    congr 1
    rw [List.range_succ_eq_map, List.map_cons, List.map_map, List.singleton_append]
    have harith : ∀ j : ℕ, env.population.length + 1 + j = env.population.length + Nat.succ j := by
      intro j
      omega
    simp [Function.comp, harith]

lemma range_two : List.range 2 = [0, 1] := by decide

lemma computeAll_envC2_eval :
    computeAll envC2 envC2.population = .ok [(0, 30), (1, 50), (2, 40)] := by
  norm_num [computeAll, update, Agent.calculate_update, neighborData, Environment.lookup,
    pyGet, pySumData, envC2, agentC2a, agentC2b, agentC2c, ok_bind, error_bind, toNat_two]

lemma commitAll_envC2_eval :
    commitAll envC2 [(0, 30), (1, 50), (2, 40)] = .ok envC2Next := by
  norm_num [commitAll, commitOne, Environment.lookup, pyGet, Agent.do_update,
    envC2, envC2Next, agentC2a, agentC2b, agentC2c, ok_bind, error_bind, toNat_two]

lemma doRound_envC2_eval : doRound envC2 = .ok envC2Next := by
  rw [doRound, computeAll_envC2_eval]
  exact commitAll_envC2_eval

lemma setupC5_eval : (mkBlank 0).setup pC5 envC5 0 takeChoose = .ok aC5setup := by
  norm_num [Agent.setup, pyRemove, pySample, takeChoose, mkBlank, envC5, pC5, aC5setup,
    ok_bind, error_bind, range_two]

/-- C1: Barrier correctness — for a well-formed environment, a successful
round commits, for every agent `i`, exactly the value that
`calculate_update` computes from the round-start environment `env` (the
snapshot all workers read); no committed value can depend on another agent's
same-round update, because all commits happen only after `computeAll`
collected every result. -/
theorem round_uses_only_snapshot (env env2 : Environment) (hwf : WF env)
    (h : doRound env = .ok env2) :
    env2.population.length = env.population.length ∧
    ∀ i (hi : i < env.population.length) (hi2 : i < env2.population.length),
      ∃ v a1, (env.population[i]).calculate_update env = .ok (v, a1) ∧
        (env2.population[i]).cur_data = some v := by
  obtain ⟨rs, hc, hcm⟩ := doRound_ok_inv h
  obtain ⟨hs, hl, hget⟩ := commitAll_ok_spec hcm
  obtain ⟨hrslen, hspec⟩ := computeAll_ok_spec hc
  refine ⟨hl, ?_⟩
  intro i hi hi2
  have hirs : i < rs.length := by omega
  obtain ⟨b, hb, hbrs⟩ := hspec i hi hirs
  rw [WF_id hwf i hi] at hbrs
  have hmem : (i, b.1) ∈ rs := by
    rw [← hbrs]
    exact List.getElem_mem hirs
  have hnd : (rs.map Prod.fst).Nodup := by
    rw [computeAll_ids hc]
    exact WF_ids_nodup hwf
  have hlw : lastWrite rs i = some b.1 := lastWrite_eq_some_of_mem hnd hmem
  refine ⟨b.1, b.2, hb, ?_⟩
  rw [hget i hi hi2, hlw]

/-- Witness for C1: the three-agent scenario environment satisfies the
hypotheses and the conclusion. -/
theorem round_uses_only_snapshot_witness :
    WF envC2 ∧ doRound envC2 = .ok envC2Next ∧
    (envC2Next.population.length = envC2.population.length ∧
      ∀ i (hi : i < envC2.population.length) (hi2 : i < envC2Next.population.length),
        ∃ v a1, (envC2.population[i]).calculate_update envC2 = .ok (v, a1) ∧
          (envC2Next.population[i]).cur_data = some v) :=
  ⟨by decide, doRound_envC2_eval,
    round_uses_only_snapshot envC2 envC2Next (by decide) doRound_envC2_eval⟩

/-- C2: the concrete one-round scenario — 3 agents with ids 0, 1, 2, neighbor
sets `{1}`, `{2}`, `{0}`, `specialFactor = 1`, initial values `[10, 20, 30]`:
after one round the committed values are 30, 50, 40, all computed from the
pre-round values. -/
theorem concrete_three_agent_round :
    envC2.population.map Agent.cur_data = [some 10, some 20, some 30] ∧
    doRound envC2 = .ok envC2Next ∧
    report envC2Next = [(0, some 30), (1, some 50), (2, some 40)] :=
  ⟨by decide, doRound_envC2_eval, by decide⟩

/-- C3: round atomicity on task failure — if any agent's update computation
raises, the whole round raises (the pool map re-raises before `result` is
bound, so the commit loop never runs) and the master environment after the
failed round equals the environment before it. -/
theorem task_failure_aborts_round (env : Environment) (a : Agent) (ha : a ∈ env.population)
    (e : Err) (he : a.calculate_update env = .error e) :
    (∃ e2, doRound env = .error e2) ∧ tryRound env = env := by
  have hner : ∀ rs, computeAll env env.population ≠ .ok rs := by
    intro rs hc
    obtain ⟨b, hb⟩ := computeAll_ok_forall hc a ha
    rw [he] at hb
    cases hb
  rcases hd : doRound env with e2 | env2
  · exact ⟨⟨e2, rfl⟩, by simp [tryRound, hd]⟩
  · exfalso
    obtain ⟨rs, hc, _⟩ := doRound_ok_inv hd
    exact hner rs hc

/-- Witness for C3: a one-agent environment whose agent references the
out-of-range neighbor id 5, so its update raises `IndexError` and the round
aborts without touching the environment. -/
theorem task_failure_aborts_round_witness :
    agentERR ∈ envERR.population ∧
    agentERR.calculate_update envERR = .error .indexError ∧
    ((∃ e2, doRound envERR = .error e2) ∧ tryRound envERR = envERR) :=
  ⟨by decide, by decide,
    task_failure_aborts_round envERR agentERR (by decide) .indexError (by decide)⟩

/-- Counterexample to C4 as stated: a negative id does not make `lookup`
fail — on a one-agent population, `lookup (-1)` succeeds and returns the
agent at the Python-resolved index. -/
theorem lookup_negative_counterexample :
    (-1 : ℤ) < 0 ∧ envC4.lookup (-1) = .ok (mkBlank 0) :=
  ⟨by decide, by decide⟩

/-- C4 (amended): `lookup(id)` fails with `IndexError` iff `id < -len` or
`id ≥ len`; for `0 ≤ id < len` it returns the agent stored at index `id`,
and for `-len ≤ id < 0` it returns the agent stored at index `len + id`
(Python negative indexing). -/
theorem lookup_python_index_semantics (env : Environment) (i : ℤ) :
    ((∃ e, env.lookup i = .error e) ↔
      (i < -(env.population.length : ℤ) ∨ (env.population.length : ℤ) ≤ i)) ∧
    (∀ (j : ℕ) (hj : j < env.population.length),
      env.lookup (j : ℤ) = .ok (env.population[j])) ∧
    (∀ h1 : -(env.population.length : ℤ) ≤ i, ∀ h2 : i < 0,
      env.lookup i =
        .ok (env.population.get ⟨(i + env.population.length).toNat, by omega⟩)) := by
  refine ⟨?_, ?_, ?_⟩
  · constructor
    · rintro ⟨e, he⟩
      by_contra hcon
      push_neg at hcon
      obtain ⟨a, ha⟩ := pyGet_isOk env.population i ⟨by omega, by omega⟩
      rw [Environment.lookup, ha] at he
      cases he
    · intro hout
      exact ⟨.indexError, by rw [Environment.lookup, pyGet_out env.population i hout]⟩
  · intro j hj
    rw [Environment.lookup, pyGet_nat env.population j hj]
    simp [List.get_eq_getElem]
  · intro h1 h2
    have hn : (i + env.population.length).toNat < env.population.length := by omega
    rw [Environment.lookup, pyGet_neg env.population i h1 h2 hn]

/-- Witness for C4 (amended): on the one-agent environment, index 0 is in
range and resolves to the stored agent. -/
theorem lookup_python_index_semantics_witness :
    0 < envC4.population.length ∧ envC4.lookup ((0 : ℕ) : ℤ) = .ok (mkBlank 0) := by
  refine ⟨by decide, ?_⟩
  rw [(lookup_python_index_semantics envC4 0).2.1 0 (by decide)]
  decide

/-- Counterexample to C5 as stated: with population size 2 and neighbor
count 1 = size - 1 (so the claimed failure condition holds), setup succeeds. -/
theorem setup_boundary_succeeds :
    envC5.population.length - 1 ≤ pC5.neighbors ∧
    (mkBlank 0).setup pC5 envC5 0 takeChoose = .ok aC5setup :=
  ⟨by decide, setupC5_eval⟩

/-- C5 (amended): for a registered agent, setup fails (with `ValueError`,
from `random.sample`) iff the requested neighbor count strictly exceeds
population size minus 1; for neighbor counts up to population size minus 1
it succeeds. -/
theorem setup_fails_iff_neighbors_too_large (a : Agent) (p : Params) (env : Environment)
    (iv : ℤ) (choose : List ℕ → ℕ → List ℕ) (hid : a.id < env.population.length) :
    (∃ e, a.setup p env iv choose = .error e) ↔
      env.population.length - 1 < p.neighbors := by
  have hsetup : a.setup p env iv choose =
      if p.neighbors ≤ env.population.length - 1 then
        .ok { a with
              cur_data := some (iv : ℚ),
              process_time := p.process_time,
              neighbors := choose ((List.range env.population.length).erase a.id) p.neighbors }
      else .error .valueError := by
    simp only [Agent.setup]
    rw [pyRemove, if_pos (List.mem_range.mpr hid)]
    simp only [ok_bind]
    rw [pySample]
    have hlen : ((List.range env.population.length).erase a.id).length =
        env.population.length - 1 := by
      rw [List.length_erase_of_mem (List.mem_range.mpr hid), List.length_range]
    rw [hlen]
    by_cases hk : p.neighbors ≤ env.population.length - 1
    · rw [if_pos hk, if_pos hk]
      rfl
    · rw [if_neg hk, if_neg hk]
      rfl
  rw [hsetup]
  by_cases hk : p.neighbors ≤ env.population.length - 1
  · rw [if_pos hk]
    constructor
    · rintro ⟨e, he⟩
      cases he
    · intro hcon
      omega
  · rw [if_neg hk]
    constructor
    · intro _
      omega
    · intro _
      exact ⟨.valueError, rfl⟩

/-- Witness for C5 (amended): one-agent population with neighbor count 1
requested — setup fails, matching the amended condition. -/
theorem setup_fails_iff_neighbors_too_large_witness :
    (mkBlank 0).id < envC4.population.length ∧
    ((∃ e, (mkBlank 0).setup pC5 envC4 0 takeChoose = .error e) ↔
      envC4.population.length - 1 < pC5.neighbors) :=
  ⟨by decide,
    setup_fails_iff_neighbors_too_large (mkBlank 0) pC5 envC4 0 takeChoose (by decide)⟩

/-- C6: neighbor-set invariant — after a successful setup (with a sampling
oracle satisfying the `random.sample` contract) the agent's neighbor list
has exactly the configured length, no duplicates, excludes the agent's own
id, and contains only valid population indices; and no later operation
(`do_update`, `calculate_update`, a whole round) changes any neighbor
list. -/
theorem neighbor_invariants (a a2 : Agent) (p : Params) (env : Environment) (iv : ℤ)
    (choose : List ℕ → ℕ → List ℕ) (hcs : SampleSpec choose)
    (hid : a.id < env.population.length)
    (hok : a.setup p env iv choose = .ok a2) :
    a2.neighbors.length = p.neighbors ∧
    a2.neighbors.Nodup ∧
    a2.id ∉ a2.neighbors ∧
    (∀ x ∈ a2.neighbors, x < env.population.length) ∧
    (∀ d, (a2.do_update d).neighbors = a2.neighbors) ∧
    (∀ env0 b, a2.calculate_update env0 = .ok b → b.2.neighbors = a2.neighbors) ∧
    (∀ env0 env1, doRound env0 = .ok env1 →
      env1.population.map Agent.neighbors = env0.population.map Agent.neighbors) := by
  obtain ⟨hk, ha2⟩ := setup_ok_inv hid hok
  have hmem := List.mem_range.mpr hid
  have hnd : ((List.range env.population.length).erase a.id).Nodup :=
    (List.nodup_range _).erase a.id
  have hlen : ((List.range env.population.length).erase a.id).length =
      env.population.length - 1 := by
    rw [List.length_erase_of_mem hmem, List.length_range]
  obtain ⟨hclen, hcnd, hcmem⟩ := hcs ((List.range env.population.length).erase a.id)
    p.neighbors hnd (by omega)
  subst ha2
  refine ⟨hclen, hcnd, ?_, ?_, ?_, ?_, ?_⟩
  · intro hin
    exact (List.nodup_range env.population.length).not_mem_erase (hcmem _ hin)
  · intro x hx
    exact List.mem_range.mp (List.mem_of_mem_erase (hcmem x hx))
  · intro d
    cases d <;> rfl
  · intro env0 b hb
    rw [calculate_update_ok_inv hb]
  · intro env0 env1 h01
    exact doRound_ok_frame h01

/-- Witness for C6: agent 0 of the two-agent environment set up with the
canonical sampling oracle. -/
theorem neighbor_invariants_witness :
    SampleSpec takeChoose ∧ (mkBlank 0).id < envC5.population.length ∧
    (mkBlank 0).setup pC5 envC5 0 takeChoose = .ok aC5setup ∧
    (aC5setup.neighbors.length = pC5.neighbors ∧
      aC5setup.neighbors.Nodup ∧
      aC5setup.id ∉ aC5setup.neighbors ∧
      (∀ x ∈ aC5setup.neighbors, x < envC5.population.length) ∧
      (∀ d, (aC5setup.do_update d).neighbors = aC5setup.neighbors) ∧
      (∀ env0 b, aC5setup.calculate_update env0 = .ok b →
        b.2.neighbors = aC5setup.neighbors) ∧
      (∀ env0 env1, doRound env0 = .ok env1 →
        env1.population.map Agent.neighbors = env0.population.map Agent.neighbors)) :=
  ⟨takeChoose_spec, by decide, setupC5_eval,
    neighbor_invariants (mkBlank 0) aC5setup pC5 envC5 0 takeChoose takeChoose_spec
      (by decide) setupC5_eval⟩

/-- C7: registration contract — `register` appends the agent, returns the
pre-call population size as the new id, changes nothing else, and never
fails; the new id immediately resolves to the registered agent; after the
`doit` registration loop the ids are exactly `0 .. n-1` and each id looks up
the agent created with it. -/
theorem register_contract :
    (∀ (env : Environment) (a : Agent),
      env.register a =
        ({ env with population := env.population ++ [a] }, env.population.length)) ∧
    (∀ (env : Environment) (a : Agent),
      (env.register a).1.lookup (((env.register a).2 : ℕ) : ℤ) = .ok a) ∧
    (∀ n : ℕ, (initAgents Environment.init n).population.map Agent.id = List.range n) ∧
    (∀ (n j : ℕ), j < n →
      (initAgents Environment.init n).lookup (j : ℤ) = .ok (mkBlank j)) := by
  have hreg : ∀ (env : Environment) (a : Agent),
      env.register a =
        ({ env with population := env.population ++ [a] }, env.population.length) := by
    intro env a
    rw [Environment.register]
    simp
  have hpop : ∀ n : ℕ,
      (initAgents Environment.init n).population = (List.range n).map mkBlank := by
    intro n
    rw [initAgents_pop n Environment.init]
    have : Environment.init.population = [] := rfl
    rw [this]
    simp
  refine ⟨hreg, ?_, ?_, ?_⟩
  · intro env a
    rw [hreg env a]
    have hlt : env.population.length <
        ({ env with population := env.population ++ [a] } :
          Environment).population.length := by
      simp
    rw [Environment.lookup, pyGet_nat _ env.population.length hlt]
    simp [List.get_eq_getElem]
  · intro n
    rw [hpop n]
    simp only [List.map_map]
    have : Agent.id ∘ mkBlank = fun j => j := rfl
    rw [this]
    simp
  · intro n j hj
    have hlen : (initAgents Environment.init n).population.length = n := by
      rw [hpop n]
      simp
    rw [Environment.lookup, pyGet_nat _ j (by omega)]
    simp only [List.get_eq_getElem, Except.ok.injEq]
    rw [List.getElem_of_eq (hpop n) (by omega)]
    simp [List.getElem_map, List.getElem_range]

/-- Witness for C7: after registering two agents, id 1 resolves to the agent
created second. -/
theorem register_contract_witness :
    1 < 2 ∧ (initAgents Environment.init 2).lookup ((1 : ℕ) : ℤ) = .ok (mkBlank 1) :=
  ⟨by decide, register_contract.2.2.2 2 1 (by decide)⟩

/-- C8: round count — a successful run of N iterations emits exactly N
per-round reports, and N = 0 emits none and leaves the environment
unchanged. -/
theorem round_count :
    (∀ (env : Environment) (n : ℕ) (env2 : Environment)
        (reps : List (List (ℕ × Option ℚ))),
      runIterations env n = .ok (env2, reps) → reps.length = n) ∧
    (∀ env : Environment, runIterations env 0 = .ok (env, [])) :=
  ⟨fun env n env2 reps h => runIterations_ok_length n env env2 reps h,
   fun _ => rfl⟩

/-- Witness for C8: one iteration on the three-agent scenario emits exactly
one report. -/
theorem round_count_witness :
    runIterations envC2 1 = .ok (envC2Next, [report envC2Next]) ∧
    [report envC2Next].length = 1 := by
  have h1 : runIterations envC2 1 = .ok (envC2Next, [report envC2Next]) :=
    runIterations_one envC2 envC2Next doRound_envC2_eval
  exact ⟨h1, round_count.1 envC2 1 envC2Next [report envC2Next] h1⟩

/-- C9: determinism — the embedded round pipeline is a pure function of the
setup, and the only scheduling freedom the pool leaves (the order in which
the per-agent results are committed) does not change the committed
environment: committing any permutation of the collected results yields the
same result, because every task read only the round-start snapshot and each
id is committed exactly once. -/
theorem commit_order_immaterial (env : Environment) (rs rs2 : List (ℕ × ℚ))
    (hwf : WF env) (hc : computeAll env env.population = .ok rs)
    (hperm : rs.Perm rs2) :
    commitAll env rs2 = commitAll env rs := by
  have hnd : (rs.map Prod.fst).Nodup := by
    rw [computeAll_ids hc]
    exact WF_ids_nodup hwf
  have hidlt : ∀ p ∈ rs, p.1 < env.population.length := by
    intro p hp
    have hm : p.1 ∈ rs.map Prod.fst := List.mem_map_of_mem Prod.fst hp
    have hwf2 : env.population.map Agent.id =
        List.range env.population.length := hwf
    rw [computeAll_ids hc, hwf2] at hm
    exact List.mem_range.mp hm
  have hidlt2 : ∀ p ∈ rs2, p.1 < env.population.length :=
    fun p hp => hidlt p (hperm.symm.subset hp)
  obtain ⟨env1, h1⟩ := commitAll_isOk_iff.mpr hidlt
  obtain ⟨env2, h2⟩ := commitAll_isOk_iff.mpr hidlt2
  rw [h1, h2]
  obtain ⟨hs1, hl1, hget1⟩ := commitAll_ok_spec h1
  obtain ⟨hs2, hl2, hget2⟩ := commitAll_ok_spec h2
  have henv : env2 = env1 := by
    apply env_eq
    · apply List.ext_getElem (by omega)
      intro j hj2 hj1
      rw [hget2 j (by omega) hj2, hget1 j (by omega) hj1]
      rw [lastWrite_perm hperm hnd j]
    · rw [hs2, hs1]
  rw [henv]

/-- Witness for C9: committing the three-agent round results in reverse
order produces the same environment. -/
theorem commit_order_immaterial_witness :
    WF envC2 ∧ computeAll envC2 envC2.population = .ok [(0, 30), (1, 50), (2, 40)] ∧
    List.Perm [((0 : ℕ), (30 : ℚ)), (1, 50), (2, 40)] [(2, 40), (1, 50), (0, 30)] ∧
    commitAll envC2 [(2, 40), (1, 50), (0, 30)] =
      commitAll envC2 [(0, 30), (1, 50), (2, 40)] :=
  ⟨by decide, computeAll_envC2_eval, by decide,
    commit_order_immaterial envC2 [(0, 30), (1, 50), (2, 40)] [(2, 40), (1, 50), (0, 30)]
      (by decide) computeAll_envC2_eval (by decide)⟩

/-- C10: `do_update` with a non-`None` argument writes exactly that value
into `cur_data` and leaves every other field unchanged; with `None` (the
default — Python cannot distinguish an explicitly passed `None` from the
missing argument) it instead copies `next_data` into `cur_data`, again
leaving every other field unchanged. -/
theorem do_update_commit_frame :
    (∀ (a : Agent) (d : ℚ),
      (a.do_update (some d)).cur_data = some d ∧
      (a.do_update (some d)).id = a.id ∧
      (a.do_update (some d)).neighbors = a.neighbors ∧
      (a.do_update (some d)).next_data = a.next_data ∧
      (a.do_update (some d)).process_time = a.process_time) ∧
    (∀ a : Agent,
      (a.do_update none).cur_data = a.next_data ∧
      (a.do_update none).id = a.id ∧
      (a.do_update none).neighbors = a.neighbors ∧
      (a.do_update none).next_data = a.next_data ∧
      (a.do_update none).process_time = a.process_time) :=
  ⟨fun _ _ => ⟨rfl, rfl, rfl, rfl, rfl⟩, fun _ => ⟨rfl, rfl, rfl, rfl, rfl⟩⟩
